import Mathlib

/-!
Shallow embedding of `auto_update.py`: a batch job that classifies the
current Jakarta time as market hours or not, loads the tracked stocks from
the `saham` table, fetches the latest daily close from yfinance for each,
upserts each price into `harga_saham_harian`, and records a heartbeat
timestamp in the singleton `system_status` row.

External effects are modelled explicitly: the Supabase tables are lists of
records threaded through the functions, the yfinance client is an oracle
function that may return a history or raise (an `Except` value), and the
possibility that a Supabase write raises is an oracle deciding, per call,
whether the call fails.
-/

namespace AutoUpdate

/-! ## Time model (`is_market_hours`, lines 30-39)

A Jakarta-local timestamp is modelled by its Python `weekday()` (0 = Monday,
5 = Saturday, 6 = Sunday), its time-of-day in microseconds since midnight
(Python `datetime.time` compares by (hour, minute, second, microsecond),
which is exactly the order of the microsecond count), and its `isoformat()`
string, which is all `update_system_status` uses. -/

/-- Microseconds since midnight of the local time h:m:s, mirroring how
Python's `time(h, m, s)` compares. -/
def timeOfDay (h m s : Nat) : Nat :=
  ((h * 60 + m) * 60 + s) * 1000000

structure JakartaNow where
  weekday : Nat
  tod : Nat
  isoTimestamp : String
deriving Repr, DecidableEq

/-- `is_market_hours` (lines 30-39): False on Saturday/Sunday
(`weekday() >= 5`), otherwise `time(9,0) <= now.time() <= time(15,30)`. -/
def is_market_hours (now_jkt : JakartaNow) : Bool :=
  if 5 ≤ now_jkt.weekday then false
  else decide (timeOfDay 9 0 0 ≤ now_jkt.tod) && decide (now_jkt.tod ≤ timeOfDay 15 30 0)

/-! ## `saham` table and `get_tracked_stocks` (lines 45-71) -/

/-- A row of the `saham` table, with the columns the job selects.
`yahoo_symbol` is `none` when the column is NULL. -/
structure SahamRow where
  id : Nat
  kode : String
  yahoo_symbol : Option String
  is_tracked : Bool
deriving Repr, DecidableEq

/-- The store query of `get_tracked_stocks` (lines 52-58):
`select(...).eq("is_tracked", True)` — the only server-side filter is on
`is_tracked`. -/
def sahamQuery (rows : List SahamRow) : List SahamRow :=
  rows.filter (fun r => r.is_tracked)

/-- The Python-side membership test `row.get("yahoo_symbol") not in
(None, "", "null")` (line 65). -/
def yahooSymbolFilled (r : SahamRow) : Bool :=
  match r.yahoo_symbol with
  | none => false
  | some s => decide (s ≠ "" ∧ s ≠ "null")

/-- `get_tracked_stocks` (lines 45-71): run the store query, then filter
again in Python on `yahoo_symbol`. -/
def get_tracked_stocks (rows : List SahamRow) : List SahamRow :=
  (sahamQuery rows).filter yahooSymbolFilled

/-! ## yfinance model and `fetch_price` (lines 77-102) -/

/-- One daily bar of a yfinance history: the row label's calendar date in
ISO form, and the Close value. Prices are modelled as integers (the job
only stores them; no arithmetic is performed on them). -/
structure Bar where
  date : String
  close : Int
deriving Repr, DecidableEq

/-- The yfinance client: given symbol, period and interval, either the
history rows in the order of the dataframe, or an exception
(`Except.error`) covering network faults, parse errors, unknown symbols. -/
abbrev Provider := String → String → String → Except String (List Bar)

structure PriceData where
  date : String
  close : Int
deriving Repr, DecidableEq

/-- `fetch_price` (lines 77-102): call
`ticker.history(period="5d", interval="1d")`; `None` if the history is
empty; otherwise the date and Close of `hist.iloc[-1]`, the last row; any
exception is caught and becomes `None`. -/
def fetch_price (yf : Provider) (symbol : String) : Option PriceData :=
  match yf symbol "5d" "1d" with
  | Except.error _ => none
  | Except.ok hist =>
    match hist.getLast? with
    | none => none
    | some last_row => some { date := last_row.date, close := last_row.close }

/-! ## `harga_saham_harian` table and `save_price_to_supabase`
(lines 108-150) -/

/-- A row of the `harga_saham_harian` table. -/
structure HargaRow where
  id : Nat
  saham_id : Nat
  close_date : String
  close_price : Int
deriving Repr, DecidableEq

/-- The table together with the id the store would assign to the next
inserted row. -/
structure HargaTable where
  rows : List HargaRow
  nextId : Nat
deriving Repr, DecidableEq

/-- The existence check's condition (lines 127-128):
`.eq("saham_id", saham_id).eq("close_date", close_date)`. -/
def matchesKey (sid : Nat) (d : String) (r : HargaRow) : Bool :=
  decide (r.saham_id = sid ∧ r.close_date = d)

/-- The effect on one row of
`.update({"close_price": p}).eq("id", harga_id)` (lines 136-138). -/
def applyPriceUpdate (harga_id : Nat) (p : Int) (r : HargaRow) : HargaRow :=
  if r.id = harga_id then { r with close_price := p } else r

/-- `save_price_to_supabase` (lines 108-150): select ids matching
(saham_id, close_date) with `limit(1)`; if the result list is non-empty
(`if existing:`), update `close_price` on the row whose id is
`existing[0]["id"]` and return "update"; otherwise insert a new row with
the three fields and return "insert". -/
def save_price_to_supabase (tbl : HargaTable) (stock : SahamRow) (data : PriceData) :
    HargaTable × String :=
  match (tbl.rows.filter (matchesKey stock.id data.date)).take 1 with
  | harga :: _ =>
    ({ tbl with rows := tbl.rows.map (applyPriceUpdate harga.id data.close) }, "update")
  | [] =>
    ({ rows := tbl.rows ++
        [{ id := tbl.nextId, saham_id := stock.id, close_date := data.date,
           close_price := data.close }],
       nextId := tbl.nextId + 1 }, "insert")

/-- Number of rows of the table for a given (saham_id, close_date) pair. -/
def countKey (tbl : HargaTable) (sid : Nat) (d : String) : Nat :=
  (tbl.rows.filter (matchesKey sid d)).length

/-! ## `system_status` table and `update_system_status` (lines 156-182) -/

/-- A row of the `system_status` table; a timestamp column is `none` when
NULL/absent. -/
structure StatusRow where
  id : Nat
  last_auto_update_at : Option String
  last_out_of_hours_run : Option String
deriving Repr, DecidableEq

/-- Writing the selected field (`last_auto_update_at` during market hours,
`last_out_of_hours_run` otherwise, line 165) on one row. -/
def setStatusField (market_hours : Bool) (ts_iso : String) (r : StatusRow) : StatusRow :=
  if market_hours then { r with last_auto_update_at := some ts_iso }
  else { r with last_out_of_hours_run := some ts_iso }

/-- The row inserted by the fallback (lines 177-182): it carries only
`id = 1` and the selected field, so the other field takes its default
NULL. -/
def statusInsertRow (market_hours : Bool) (ts_iso : String) : StatusRow :=
  if market_hours then { id := 1, last_auto_update_at := some ts_iso, last_out_of_hours_run := none }
  else { id := 1, last_auto_update_at := none, last_out_of_hours_run := some ts_iso }

/-- `update_system_status` (lines 156-182): update the selected field on
every row with `id = 1`; the response data is the list of affected rows;
if it is empty (`if not data:`), insert `{"id": 1, field: ts_iso}`. -/
def update_system_status (rows : List StatusRow) (ts_iso : String) (market_hours : Bool) :
    List StatusRow :=
  let updated := rows.map (fun r => if r.id = 1 then setStatusField market_hours ts_iso r else r)
  let data := updated.filter (fun r => decide (r.id = 1))
  if data.isEmpty then updated ++ [statusInsertRow market_hours ts_iso]
  else updated

/-- The selected field of a status row. -/
def statusField (market_hours : Bool) (r : StatusRow) : Option String :=
  if market_hours then r.last_auto_update_at else r.last_out_of_hours_run

/-- The field `update_system_status` does not select. -/
def otherStatusField (market_hours : Bool) (r : StatusRow) : Option String :=
  if market_hours then r.last_out_of_hours_run else r.last_auto_update_at

/-! ## `run_once` (lines 188-228)

Failures of Supabase writes inside the loop and in the status update are
modelled by oracles: `saveFail stock.id = true` means
`save_price_to_supabase` raises for that stock (the `except` of lines
221-222 catches it before any write lands), and `statusFail = true` means
`update_system_status` raises (caught at lines 227-228). -/

/-- The whole database: the three tables the job touches. -/
structure DB where
  saham : List SahamRow
  harga : HargaTable
  status : List StatusRow
deriving Repr, DecidableEq

/-- One iteration of the per-stock loop (lines 203-222): skip when
`yahoo_symbol` is falsy, skip when `fetch_price` returns `None`, skip
(state unchanged) when the save raises; otherwise perform the upsert. -/
def processStock (yf : Provider) (saveFail : Nat → Bool) (tbl : HargaTable)
    (stock : SahamRow) : HargaTable :=
  match stock.yahoo_symbol with
  | none => tbl
  | some symbol =>
    if symbol = "" then tbl
    else
      match fetch_price yf symbol with
      | none => tbl
      | some price =>
        if saveFail stock.id then tbl
        else (save_price_to_supabase tbl stock price).1

/-- The per-stock loop, folding `processStock` over the stock list. -/
def processStocks (yf : Provider) (saveFail : Nat → Bool) :
    List SahamRow → HargaTable → HargaTable
  | [], tbl => tbl
  | stock :: rest, tbl => processStocks yf saveFail rest (processStock yf saveFail tbl stock)

/-- `run_once` (lines 188-228): classify the time, load the tracked
stocks, run the per-stock loop, then try the status update (a raise there
is caught and leaves the status table untouched). -/
def run_once (yf : Provider) (saveFail : Nat → Bool) (statusFail : Bool)
    (now_jkt : JakartaNow) (db : DB) : DB :=
  let market_hours := is_market_hours now_jkt
  let stocks := get_tracked_stocks db.saham
  let harga := processStocks yf saveFail stocks db.harga
  let status :=
    if statusFail then db.status
    else update_system_status db.status now_jkt.isoTimestamp market_hours
  { db with harga := harga, status := status }

/-! ## Startup configuration (lines 17-23) -/

/-- The environment variables the script reads. `none` models an unset
variable. -/
structure Env where
  supabase_url : Option String
  service_role_key : Option String
  anon_key : Option String
deriving Repr, DecidableEq

/-- Python truthiness of an `os.getenv` result: `None` and `""` are
falsy. -/
def pyTruthy : Option String → Bool
  | none => false
  | some s => decide (s ≠ "")

/-- Python's `a or b` on two `os.getenv` results (line 18). -/
def pyOr (a b : Option String) : Option String :=
  if pyTruthy a then a else b

/-- Lines 17-21: read `SUPABASE_URL` and
`SUPABASE_SERVICE_ROLE_KEY or SUPABASE_ANON_KEY`; raise `RuntimeError`
when either is falsy, before the client is created and before anything
else runs. -/
def startupConfig (env : Env) : Except String (String × String) :=
  let url := env.supabase_url
  let key := pyOr env.service_role_key env.anon_key
  if pyTruthy url = false || pyTruthy key = false then
    Except.error "SUPABASE_URL / SUPABASE_SERVICE_ROLE_KEY belum di-set di .env"
  else Except.ok (url.getD "", key.getD "")

/-- The process entry point: module import runs the startup check
(lines 17-21); only if it passes does `run_once` execute. An `error`
result is the uncaught `RuntimeError`: no table was read or written and no
provider call was made. -/
def main_run (env : Env) (yf : Provider) (saveFail : Nat → Bool) (statusFail : Bool)
    (now_jkt : JakartaNow) (db : DB) : Except String DB :=
  match startupConfig env with
  | Except.error e => Except.error e
  | Except.ok _ => Except.ok (run_once yf saveFail statusFail now_jkt db)

/-- Concrete provider fixture: raises for symbol "B.JK" and returns a
one-bar history for every other symbol. -/
def oneFailProvider : Provider := fun s _ _ =>
  if s = "B.JK" then Except.error "net" else Except.ok [Bar.mk "2024-03-01" 100]

/-! ## Helper lemmas -/

/-- Filtering commutes with a map that does not change the predicate. -/
theorem filter_map_of_pres {α : Type} (f : α → α) (p : α → Bool)
    (h : ∀ x, p (f x) = p x) (l : List α) :
    (l.map f).filter p = (l.filter p).map f := by
  induction l with
  | nil => rfl
  | cons a t ih =>
    by_cases ha : p a = true
    · simp [List.filter_cons, h, ha, ih]
    · simp only [Bool.not_eq_true] at ha
      simp [List.filter_cons, h, ha, ih]

/-- A map that fixes every element of a list is the identity on it. -/
theorem map_eq_self_of {α : Type} (f : α → α) (l : List α)
    (h : ∀ x ∈ l, f x = x) : l.map f = l := by
  induction l with
  | nil => rfl
  | cons a t ih =>
    simp only [List.map_cons, h a (List.mem_cons_self a t)]
    rw [ih (fun x hx => h x (List.mem_cons_of_mem a hx))]

/-- In a pairwise-related list, every element is the last one or related
to it. -/
theorem rel_getLast?_of_pairwise {α : Type} {R : α → α → Prop} :
    ∀ {l : List α} {x : α}, l.Pairwise R → l.getLast? = some x →
      ∀ b ∈ l, b = x ∨ R b x := by
  intro l
  induction l with
  | nil => intro x _ hl; cases hl
  | cons a t ih =>
    intro x hp hl b hb
    rcases List.pairwise_cons.mp hp with ⟨ha, ht⟩
    cases t with
    | nil =>
      simp only [List.getLast?_singleton, Option.some.injEq] at hl
      rcases List.mem_singleton.mp hb with rfl
      exact Or.inl hl
    | cons c t' =>
      rw [List.getLast?_cons_cons] at hl
      have hx_mem : x ∈ c :: t' := by
        rcases List.mem_getLast?_eq_getLast (Option.mem_def.mpr hl) with ⟨hne, hxe⟩
        rw [hxe]
        exact List.getLast_mem hne
      rcases List.mem_cons.mp hb with rfl | hb'
      · exact Or.inr (ha x hx_mem)
      · exact ih ht hl b hb'

/-- `applyPriceUpdate` changes neither `saham_id` nor `close_date`, so it
does not change key membership. -/
theorem matchesKey_applyPriceUpdate (sid : Nat) (d : String) (hid : Nat) (p : Int)
    (r : HargaRow) : matchesKey sid d (applyPriceUpdate hid p r) = matchesKey sid d r := by
  unfold applyPriceUpdate matchesKey
  by_cases h : r.id = hid <;> simp [h]

/-- Every per-pair row count is unchanged by the update write. -/
theorem countKey_map_applyPriceUpdate (rows : List HargaRow) (n : Nat) (hid : Nat) (p : Int)
    (sid : Nat) (d : String) :
    countKey ⟨rows.map (applyPriceUpdate hid p), n⟩ sid d = countKey ⟨rows, n⟩ sid d := by
  unfold countKey
  simp only
  rw [filter_map_of_pres _ _ (matchesKey_applyPriceUpdate sid d hid p) rows]
  exact List.length_map _ _

/-! ## C3: market-hours classifier -/

/-- C3: on Saturday (weekday 5) or Sunday (weekday 6) `is_market_hours` is
false regardless of time-of-day; on a weekday it is true exactly when the
time-of-day lies in the inclusive window [09:00, 15:30]; in particular it
is true at exactly 09:00:00 and 15:30:00 and false at 08:59:59 and
15:30:01. -/
theorem is_market_hours_spec :
    (∀ now_jkt : JakartaNow, now_jkt.weekday = 5 ∨ now_jkt.weekday = 6 →
      is_market_hours now_jkt = false)
    ∧ (∀ now_jkt : JakartaNow, now_jkt.weekday < 5 →
      (is_market_hours now_jkt = true ↔
        timeOfDay 9 0 0 ≤ now_jkt.tod ∧ now_jkt.tod ≤ timeOfDay 15 30 0))
    ∧ is_market_hours ⟨0, timeOfDay 9 0 0, ""⟩ = true
    ∧ is_market_hours ⟨0, timeOfDay 15 30 0, ""⟩ = true
    ∧ is_market_hours ⟨0, timeOfDay 8 59 59, ""⟩ = false
    ∧ is_market_hours ⟨0, timeOfDay 15 30 1, ""⟩ = false := by
  refine ⟨?_, ?_, by decide, by decide, by decide, by decide⟩
  · intro now_jkt h
    have h5 : 5 ≤ now_jkt.weekday := by rcases h with h | h <;> omega
    simp [is_market_hours, h5]
  · intro now_jkt h
    have h5 : ¬ 5 ≤ now_jkt.weekday := by omega
    simp [is_market_hours, h5]

/-- Witness for C3 at a concrete Saturday-afternoon and a concrete
Wednesday-noon timestamp. -/
theorem is_market_hours_spec_witness :
    ((⟨5, timeOfDay 12 0 0, ""⟩ : JakartaNow).weekday = 5 ∨
      (⟨5, timeOfDay 12 0 0, ""⟩ : JakartaNow).weekday = 6)
    ∧ is_market_hours ⟨5, timeOfDay 12 0 0, ""⟩ = false
    ∧ (⟨2, timeOfDay 12 0 0, ""⟩ : JakartaNow).weekday < 5
    ∧ is_market_hours ⟨2, timeOfDay 12 0 0, ""⟩ = true :=
  ⟨Or.inl rfl,
   is_market_hours_spec.1 ⟨5, timeOfDay 12 0 0, ""⟩ (Or.inl rfl),
   by decide,
   (is_market_hours_spec.2.1 ⟨2, timeOfDay 12 0 0, ""⟩ (by decide)).mpr (by decide)⟩

/-! ## C4: price fetcher -/

/-- C4: `fetch_price` asks the provider for the 5-day daily history; a
provider exception yields `none`, an empty history yields `none`, and a
non-empty history yields the date and close of its last bar — which is the
chronologically last bar whenever the history is sorted by date. The
function is total, so no exception escapes it. -/
theorem fetch_price_spec (yf : Provider) (symbol : String) :
    ((∃ e, yf symbol "5d" "1d" = Except.error e) → fetch_price yf symbol = none)
    ∧ (yf symbol "5d" "1d" = Except.ok [] → fetch_price yf symbol = none)
    ∧ (∀ hist last_bar, yf symbol "5d" "1d" = Except.ok hist →
        hist.getLast? = some last_bar →
        fetch_price yf symbol = some { date := last_bar.date, close := last_bar.close }
        ∧ (hist.Pairwise (fun a b => a.date < b.date) →
            ∀ b ∈ hist, b.date ≤ last_bar.date)) := by
  refine ⟨?_, ?_, ?_⟩
  · rintro ⟨e, he⟩
    simp [fetch_price, he]
  · intro h
    simp [fetch_price, h]
  · intro hist last_bar hok hlast
    refine ⟨by simp [fetch_price, hok, hlast], ?_⟩
    intro hsorted b hb
    rcases rel_getLast?_of_pairwise hsorted hlast b hb with rfl | hlt
    · exact le_refl _
    · exact le_of_lt hlt

/-- Witness for C4 on a concrete provider: an erroring symbol yields
`none`, and a two-bar sorted history yields the last bar's date and
close. -/
theorem fetch_price_spec_witness :
    (∃ e, (fun s _ _ => if s = "ERR" then Except.error "boom"
        else Except.ok [Bar.mk "2024-03-01" 100, Bar.mk "2024-03-04" 110] : Provider)
        "ERR" "5d" "1d" = Except.error e)
    ∧ fetch_price (fun s _ _ => if s = "ERR" then Except.error "boom"
        else Except.ok [Bar.mk "2024-03-01" 100, Bar.mk "2024-03-04" 110]) "ERR" = none
    ∧ fetch_price (fun s _ _ => if s = "ERR" then Except.error "boom"
        else Except.ok [Bar.mk "2024-03-01" 100, Bar.mk "2024-03-04" 110]) "BBCA.JK"
        = some { date := "2024-03-04", close := 110 } :=
  ⟨⟨"boom", rfl⟩,
   (fetch_price_spec _ "ERR").1 ⟨"boom", rfl⟩,
   ((fetch_price_spec (fun s _ _ => if s = "ERR" then Except.error "boom"
        else Except.ok [Bar.mk "2024-03-01" 100, Bar.mk "2024-03-04" 110]) "BBCA.JK").2.2
      [Bar.mk "2024-03-01" 100, Bar.mk "2024-03-04" 110]
      (Bar.mk "2024-03-04" 110) rfl (by decide)).1⟩

/-! ## C1: upsert correctness -/

/-- C1: when no row exists for (stock.id, data.date) the upsert appends
exactly one new row carrying that pair and the given price and returns
"insert"; when exactly one row exists, the upsert keeps exactly one row
for the pair, that row now carries the new price, no row is added or
removed, and "update" is returned. -/
theorem save_price_upsert_correct (tbl : HargaTable) (stock : SahamRow) (data : PriceData) :
    (countKey tbl stock.id data.date = 0 →
      (save_price_to_supabase tbl stock data).2 = "insert"
      ∧ (save_price_to_supabase tbl stock data).1.rows
          = tbl.rows ++ [HargaRow.mk tbl.nextId stock.id data.date data.close]
      ∧ countKey (save_price_to_supabase tbl stock data).1 stock.id data.date = 1)
    ∧ (countKey tbl stock.id data.date = 1 →
      (save_price_to_supabase tbl stock data).2 = "update"
      ∧ (save_price_to_supabase tbl stock data).1.rows.length = tbl.rows.length
      ∧ countKey (save_price_to_supabase tbl stock data).1 stock.id data.date = 1
      ∧ ∀ r ∈ (save_price_to_supabase tbl stock data).1.rows,
          matchesKey stock.id data.date r = true → r.close_price = data.close) := by
  constructor
  · intro h0
    have hf : tbl.rows.filter (matchesKey stock.id data.date) = [] :=
      List.length_eq_zero.mp h0
    refine ⟨by simp [save_price_to_supabase, hf], by simp [save_price_to_supabase, hf], ?_⟩
    simp [save_price_to_supabase, hf, countKey, List.filter_append, matchesKey]
  · intro h1
    obtain ⟨e, hf⟩ := List.length_eq_one.mp h1
    have he : e ∈ tbl.rows.filter (matchesKey stock.id data.date) := by
      rw [hf]; exact List.mem_singleton_self e
    have hkm : matchesKey stock.id data.date e = true := (List.mem_filter.mp he).2
    refine ⟨by simp [save_price_to_supabase, hf], by simp [save_price_to_supabase, hf], ?_, ?_⟩
    · have := countKey_map_applyPriceUpdate tbl.rows tbl.nextId e.id data.close
        stock.id data.date
      simp only [save_price_to_supabase, hf, List.take, countKey] at this ⊢
      rw [this]
      rfl
    · intro r hr hrkm
      simp only [save_price_to_supabase, hf, List.take] at hr
      rcases List.mem_map.mp hr with ⟨r0, hr0, rfl⟩
      rw [matchesKey_applyPriceUpdate] at hrkm
      have hr0f : r0 ∈ tbl.rows.filter (matchesKey stock.id data.date) :=
        List.mem_filter.mpr ⟨hr0, hrkm⟩
      rw [hf, List.mem_singleton] at hr0f
      subst hr0f
      simp [applyPriceUpdate]

/-- Witness for C1: the spec's end-to-end scenario — inserting 9500 into
an empty table, then upserting 9550 for the same (1, 2024-03-01) pair. -/
theorem save_price_upsert_correct_witness :
    countKey ⟨[], 0⟩ 1 "2024-03-01" = 0
    ∧ (save_price_to_supabase ⟨[], 0⟩ ⟨1, "BBCA", some "BBCA.JK", true⟩
        ⟨"2024-03-01", 9500⟩).2 = "insert"
    ∧ countKey ⟨[⟨0, 1, "2024-03-01", 9500⟩], 1⟩ 1 "2024-03-01" = 1
    ∧ (save_price_to_supabase ⟨[⟨0, 1, "2024-03-01", 9500⟩], 1⟩ ⟨1, "BBCA", some "BBCA.JK", true⟩
        ⟨"2024-03-01", 9550⟩).2 = "update" :=
  ⟨by decide,
   ((save_price_upsert_correct ⟨[], 0⟩ ⟨1, "BBCA", some "BBCA.JK", true⟩
      ⟨"2024-03-01", 9500⟩).1 (by decide)).1,
   by decide,
   ((save_price_upsert_correct ⟨[⟨0, 1, "2024-03-01", 9500⟩], 1⟩ ⟨1, "BBCA", some "BBCA.JK", true⟩
      ⟨"2024-03-01", 9550⟩).2 (by decide)).1⟩

/-! ## C2: at-most-one-row invariant -/

/-- C2: if every (saham_id, close_date) pair has at most one row, then
after one (non-concurrent) upsert every pair still has at most one row:
the check-then-write logic alone maintains the invariant. -/
theorem save_price_preserves_key_uniqueness (tbl : HargaTable) (stock : SahamRow)
    (data : PriceData) (h : ∀ sid d, countKey tbl sid d ≤ 1) :
    ∀ sid d, countKey (save_price_to_supabase tbl stock data).1 sid d ≤ 1 := by
  intro sid d
  cases hf : tbl.rows.filter (matchesKey stock.id data.date) with
  | cons e rest =>
    have := countKey_map_applyPriceUpdate tbl.rows tbl.nextId e.id data.close sid d
    simp only [save_price_to_supabase, hf, List.take, countKey] at this ⊢
    rw [this]
    exact h sid d
  | nil =>
    simp only [save_price_to_supabase, hf, List.take, countKey, List.filter_append,
      List.length_append]
    by_cases hm : matchesKey sid d
        { id := tbl.nextId, saham_id := stock.id, close_date := data.date,
          close_price := data.close } = true
    · obtain ⟨h1, h2⟩ := of_decide_eq_true hm
      simp only at h1 h2
      subst h1; subst h2
      rw [hf]
      simp [hm]
    · simp only [Bool.not_eq_true] at hm
      simp only [List.filter_cons, hm, List.filter_nil, List.length_nil, Nat.add_zero,
        Bool.false_eq_true, if_neg]
      exact h sid d

/-- Witness for C2: the invariant holds for the empty table and is
preserved through a concrete upsert. -/
theorem save_price_preserves_key_uniqueness_witness :
    countKey (save_price_to_supabase ⟨[], 0⟩ ⟨1, "BBCA", some "BBCA.JK", true⟩
      ⟨"2024-03-01", 9500⟩).1 1 "2024-03-01" ≤ 1 :=
  save_price_preserves_key_uniqueness ⟨[], 0⟩ ⟨1, "BBCA", some "BBCA.JK", true⟩
    ⟨"2024-03-01", 9500⟩ (fun _ _ => Nat.zero_le 1) 1 "2024-03-01"

/-! ## C10: behavior on pre-existing duplicates -/

/-- C10: if the table already holds two or more rows for the stock's
(saham_id, close_date) pair (and row ids are distinct, as primary keys
are), the upsert takes the update path, changes the close_price of only
the single row selected by the limit-1 query (the first filtered row),
deletes nothing, and leaves every pair's row count — in particular the
duplicate count — unchanged. -/
theorem save_price_preserves_duplicates (tbl : HargaTable) (stock : SahamRow) (data : PriceData)
    (hdup : 2 ≤ countKey tbl stock.id data.date)
    (hids : tbl.rows.Pairwise (fun a b => a.id ≠ b.id)) :
    (save_price_to_supabase tbl stock data).2 = "update"
    ∧ (∀ sid d, countKey (save_price_to_supabase tbl stock data).1 sid d = countKey tbl sid d)
    ∧ ∃ l1 e l2, tbl.rows = l1 ++ e :: l2
        ∧ matchesKey stock.id data.date e = true
        ∧ (tbl.rows.filter (matchesKey stock.id data.date)).head? = some e
        ∧ (save_price_to_supabase tbl stock data).1.rows
            = l1 ++ { e with close_price := data.close } :: l2 := by
  cases hf : tbl.rows.filter (matchesKey stock.id data.date) with
  | nil =>
    rw [countKey, hf] at hdup
    simp at hdup
  | cons e rest =>
    have he : e ∈ tbl.rows.filter (matchesKey stock.id data.date) := by
      rw [hf]; exact List.mem_cons_self e rest
    have hmem : e ∈ tbl.rows := (List.mem_filter.mp he).1
    have hkm : matchesKey stock.id data.date e = true := (List.mem_filter.mp he).2
    obtain ⟨l1, l2, hsplit⟩ := List.append_of_mem hmem
    refine ⟨by simp [save_price_to_supabase, hf], ?_, l1, e, l2, hsplit, hkm, ?_, ?_⟩
    · intro sid d
      have := countKey_map_applyPriceUpdate tbl.rows tbl.nextId e.id data.close sid d
      simp only [save_price_to_supabase, hf, List.take, countKey] at this ⊢
      rw [this]
    · rfl
    · have hpw := hsplit ▸ hids
      obtain ⟨hp1, hp2, hmid⟩ := List.pairwise_append.mp hpw
      have he2 : ∀ b ∈ l2, e.id ≠ b.id := (List.pairwise_cons.mp hp2).1
      have hl1 : ∀ x ∈ l1, applyPriceUpdate e.id data.close x = x := by
        intro x hx
        have hne : x.id ≠ e.id := hmid x hx e (List.mem_cons_self e l2)
        simp [applyPriceUpdate, hne]
      have hl2 : ∀ x ∈ l2, applyPriceUpdate e.id data.close x = x := by
        intro x hx
        have hne : x.id ≠ e.id := fun hxe => he2 x hx hxe.symm
        simp [applyPriceUpdate, hne]
      simp only [save_price_to_supabase, hf, List.take]
      rw [hsplit, List.map_append, List.map_cons,
        map_eq_self_of _ l1 hl1, map_eq_self_of _ l2 hl2]
      simp [applyPriceUpdate]

/-- Witness for C10: a table holding two rows (distinct ids) for the pair
(1, 2024-03-01); the upsert returns "update" and the duplicate count
stays 2. -/
theorem save_price_preserves_duplicates_witness :
    2 ≤ countKey ⟨[⟨0, 1, "2024-03-01", 100⟩, ⟨7, 1, "2024-03-01", 105⟩], 8⟩ 1 "2024-03-01"
    ∧ (save_price_to_supabase ⟨[⟨0, 1, "2024-03-01", 100⟩, ⟨7, 1, "2024-03-01", 105⟩], 8⟩
        ⟨1, "BBCA", some "BBCA.JK", true⟩ ⟨"2024-03-01", 111⟩).2 = "update"
    ∧ countKey (save_price_to_supabase ⟨[⟨0, 1, "2024-03-01", 100⟩, ⟨7, 1, "2024-03-01", 105⟩], 8⟩
        ⟨1, "BBCA", some "BBCA.JK", true⟩ ⟨"2024-03-01", 111⟩).1 1 "2024-03-01"
      = countKey ⟨[⟨0, 1, "2024-03-01", 100⟩, ⟨7, 1, "2024-03-01", 105⟩], 8⟩ 1 "2024-03-01" :=
  ⟨by decide,
   (save_price_preserves_duplicates ⟨[⟨0, 1, "2024-03-01", 100⟩, ⟨7, 1, "2024-03-01", 105⟩], 8⟩
      ⟨1, "BBCA", some "BBCA.JK", true⟩ ⟨"2024-03-01", 111⟩ (by decide) (by decide)).1,
   (save_price_preserves_duplicates ⟨[⟨0, 1, "2024-03-01", 100⟩, ⟨7, 1, "2024-03-01", 105⟩], 8⟩
      ⟨1, "BBCA", some "BBCA.JK", true⟩ ⟨"2024-03-01", 111⟩ (by decide) (by decide)).2.1
      1 "2024-03-01"⟩

/-! ## C5: status recorder -/

/-- C5: when a row with id 1 exists, `update_system_status` writes the
timestamp into exactly the selected field (`last_auto_update_at` during
market hours, `last_out_of_hours_run` otherwise) of the fixed-id row,
leaves the other field unchanged, and leaves rows with other ids alone;
when no row with id 1 exists, it appends the fallback row carrying only
the id and the selected field, the other field staying `none`. -/
theorem update_system_status_spec (rows : List StatusRow) (ts_iso : String)
    (market_hours : Bool) :
    (rows.any (fun r => decide (r.id = 1)) = true →
      update_system_status rows ts_iso market_hours
        = rows.map (fun r => if r.id = 1 then setStatusField market_hours ts_iso r else r)
      ∧ ∀ r : StatusRow,
          statusField market_hours (setStatusField market_hours ts_iso r) = some ts_iso
          ∧ otherStatusField market_hours (setStatusField market_hours ts_iso r)
              = otherStatusField market_hours r
          ∧ (r.id ≠ 1 →
              (if r.id = 1 then setStatusField market_hours ts_iso r else r) = r))
    ∧ (rows.any (fun r => decide (r.id = 1)) = false →
      update_system_status rows ts_iso market_hours
        = rows ++ [statusInsertRow market_hours ts_iso]
      ∧ statusField market_hours (statusInsertRow market_hours ts_iso) = some ts_iso
      ∧ otherStatusField market_hours (statusInsertRow market_hours ts_iso) = none) := by
  have hpres : ∀ r : StatusRow,
      (decide ((if r.id = 1 then setStatusField market_hours ts_iso r else r).id = 1) : Bool)
        = decide (r.id = 1) := by
    intro r
    by_cases h : r.id = 1 <;> cases market_hours <;> simp [setStatusField, h]
  have hdata : (rows.map (fun r => if r.id = 1 then setStatusField market_hours ts_iso r else r)).filter
        (fun r => decide (r.id = 1))
      = (rows.filter (fun r => decide (r.id = 1))).map
        (fun r => if r.id = 1 then setStatusField market_hours ts_iso r else r) :=
    filter_map_of_pres _ _ hpres rows
  constructor
  · intro hany
    obtain ⟨x, hx, hpx⟩ := List.any_eq_true.mp hany
    have hfne : rows.filter (fun r => decide (r.id = 1)) ≠ [] := by
      intro hnil
      have := List.filter_eq_nil_iff.mp hnil x hx
      exact this hpx
    constructor
    · simp only [update_system_status]
      rw [hdata]
      cases hfe : rows.filter (fun r => decide (r.id = 1)) with
      | nil => exact absurd hfe hfne
      | cons c t => simp
    · intro r
      refine ⟨?_, ?_, ?_⟩
      · cases market_hours <;> simp [statusField, setStatusField]
      · cases market_hours <;> simp [otherStatusField, setStatusField]
      · intro h
        simp [h]
  · intro hany
    have hnone : ∀ x ∈ rows, ¬ ((fun r => decide (r.id = 1)) x = true) := by
      intro x hx hpx
      have : rows.any (fun r => decide (r.id = 1)) = true :=
        List.any_eq_true.mpr ⟨x, hx, hpx⟩
      rw [hany] at this
      cases this
    have hfnil : rows.filter (fun r => decide (r.id = 1)) = [] :=
      List.filter_eq_nil_iff.mpr hnone
    have hid : rows.map (fun r => if r.id = 1 then setStatusField market_hours ts_iso r else r)
        = rows := by
      apply map_eq_self_of
      intro x hx
      have : ¬ x.id = 1 := by
        have := hnone x hx
        simpa using this
      simp [this]
    refine ⟨?_, ?_, ?_⟩
    · simp only [update_system_status]
      rw [hdata, hfnil, hid]
      simp
    · cases market_hours <;> simp [statusField, statusInsertRow]
    · cases market_hours <;> simp [otherStatusField, statusInsertRow]

/-- Witness for C5: a market-hours run on an existing singleton row
updates only `last_auto_update_at`, and an off-hours run on an empty
table inserts a row whose `last_auto_update_at` stays `none`. -/
theorem update_system_status_spec_witness :
    ([StatusRow.mk 1 none (some "old")].any (fun r => decide (r.id = 1)) = true
      ∧ update_system_status [StatusRow.mk 1 none (some "old")] "T" true
          = [StatusRow.mk 1 (some "T") (some "old")])
    ∧ (([] : List StatusRow).any (fun r => decide (r.id = 1)) = false
      ∧ update_system_status [] "T" false = [StatusRow.mk 1 none (some "T")]) := by
  constructor
  · refine ⟨by decide, ?_⟩
    rw [((update_system_status_spec [StatusRow.mk 1 none (some "old")] "T" true).1
      (by decide)).1]
    decide
  · refine ⟨by decide, ?_⟩
    rw [((update_system_status_spec [] "T" false).2 (by decide)).1]
    decide

/-! ## C6: tracked-symbol loader -/

/-- Two successive filters collapse to one conjunctive filter. -/
theorem filter_filter_and {α : Type} (p q : α → Bool) (l : List α) :
    (l.filter p).filter q = l.filter (fun a => p a && q a) := by
  induction l with
  | nil => rfl
  | cons a t ih =>
    by_cases hp : p a = true
    · by_cases hq : q a = true
      · simp [List.filter_cons, hp, hq, ih]
      · simp only [Bool.not_eq_true] at hq
        simp [List.filter_cons, hp, hq, ih]
    · simp only [Bool.not_eq_true] at hp
      simp [List.filter_cons, hp, ih]

/-- Counterexample to C6 as stated: the store query filters only on
`is_tracked`, so a tracked row whose `yahoo_symbol` is the empty string
comes back from the query — the symbol filtering is NOT performed in the
store query, only afterwards in Python (where the row is indeed
dropped). -/
theorem get_tracked_stocks_query_counterexample :
    (SahamRow.mk 7 "X" (some "") true).is_tracked = true
    ∧ yahooSymbolFilled (SahamRow.mk 7 "X" (some "") true) = false
    ∧ sahamQuery [SahamRow.mk 7 "X" (some "") true] = [SahamRow.mk 7 "X" (some "") true]
    ∧ get_tracked_stocks [SahamRow.mk 7 "X" (some "") true] = [] := by
  decide

/-- C6 amended: the loader returns exactly the rows with `is_tracked`
true and a `yahoo_symbol` that is non-null, non-empty and not the literal
"null"; rows failing the symbol condition are excluded even when tracked.
The store query filters only on `is_tracked`; the symbol filtering is
applied once, client-side, on the returned rows. -/
theorem get_tracked_stocks_amended (rows : List SahamRow) :
    get_tracked_stocks rows = rows.filter (fun r => r.is_tracked && yahooSymbolFilled r)
    ∧ sahamQuery rows = rows.filter (fun r => r.is_tracked)
    ∧ ∀ r ∈ rows, r.is_tracked = true → yahooSymbolFilled r = false →
        r ∉ get_tracked_stocks rows := by
  have h1 : get_tracked_stocks rows
      = rows.filter (fun r => r.is_tracked && yahooSymbolFilled r) := by
    unfold get_tracked_stocks sahamQuery
    exact filter_filter_and _ _ rows
  refine ⟨h1, rfl, ?_⟩
  intro r _ htr hsym hmem
  rw [h1] at hmem
  have hp := (List.mem_filter.mp hmem).2
  rw [htr, hsym] at hp
  simp at hp

/-- Witness for C6's amended claim: a tracked row with symbol "null" is
excluded from the loader's result. -/
theorem get_tracked_stocks_amended_witness :
    (SahamRow.mk 3 "Y" (some "null") true) ∈
        [SahamRow.mk 3 "Y" (some "null") true, SahamRow.mk 4 "Z" (some "Z.JK") true]
    ∧ (SahamRow.mk 3 "Y" (some "null") true).is_tracked = true
    ∧ yahooSymbolFilled (SahamRow.mk 3 "Y" (some "null") true) = false
    ∧ (SahamRow.mk 3 "Y" (some "null") true) ∉
        get_tracked_stocks
          [SahamRow.mk 3 "Y" (some "null") true, SahamRow.mk 4 "Z" (some "Z.JK") true] :=
  ⟨by decide, by decide, by decide,
   (get_tracked_stocks_amended
      [SahamRow.mk 3 "Y" (some "null") true, SahamRow.mk 4 "Z" (some "Z.JK") true]).2.2
      (SahamRow.mk 3 "Y" (some "null") true) (by decide) (by decide) (by decide)⟩

/-! ## C7: per-instrument failures are skipped -/

/-- A failing instrument leaves the price table untouched: fetch failure
(`fetch_price` = none, covering provider raises and empty data) or a save
raise both make the loop body a no-op for that stock. -/
theorem processStock_eq_of_failure (yf : Provider) (saveFail : Nat → Bool) (tbl : HargaTable)
    (bad : SahamRow)
    (h : (∃ sym, bad.yahoo_symbol = some sym ∧ sym ≠ "" ∧ fetch_price yf sym = none)
        ∨ saveFail bad.id = true) :
    processStock yf saveFail tbl bad = tbl := by
  unfold processStock
  cases hsym : bad.yahoo_symbol with
  | none => rfl
  | some s =>
    by_cases hse : s = ""
    · simp [hse]
    · rcases h with ⟨sym, hsome, _, hfetch⟩ | hsf
      · rw [hsym] at hsome
        injection hsome with hss
        subst hss
        simp [hse, hfetch]
      · cases hfp : fetch_price yf s with
        | none => simp [hse, hfp]
        | some price => simp [hse, hfp, hsf]

/-- C7: a failure for one instrument in the per-instrument loop (fetch
returning no data — which is how provider raises surface — or the save
step raising) is skipped without affecting the processing of the
instruments before or after it: the loop result is the same as if the
failing instrument were absent from the batch. -/
theorem run_once_skips_failed_instrument (yf : Provider) (saveFail : Nat → Bool)
    (l1 l2 : List SahamRow) (bad : SahamRow) (tbl : HargaTable)
    (h : (∃ sym, bad.yahoo_symbol = some sym ∧ sym ≠ "" ∧ fetch_price yf sym = none)
        ∨ saveFail bad.id = true) :
    processStocks yf saveFail (l1 ++ bad :: l2) tbl
      = processStocks yf saveFail (l1 ++ l2) tbl := by
  induction l1 generalizing tbl with
  | nil =>
    simp only [List.nil_append, processStocks]
    rw [processStock_eq_of_failure yf saveFail tbl bad h]
  | cons a t ih =>
    simp only [List.cons_append, processStocks]
    exact ih (processStock yf saveFail tbl a)

/-- Witness for C7: in a batch of three tracked stocks where the provider
fails for "B.JK" only, the loop result equals processing the other two,
and both of their prices land in the table. -/
theorem run_once_skips_failed_instrument_witness :
    fetch_price oneFailProvider "B.JK" = none
    ∧ processStocks oneFailProvider (fun _ => false)
        [SahamRow.mk 1 "A" (some "A.JK") true, SahamRow.mk 2 "B" (some "B.JK") true,
          SahamRow.mk 3 "C" (some "C.JK") true] ⟨[], 0⟩
      = processStocks oneFailProvider (fun _ => false)
        [SahamRow.mk 1 "A" (some "A.JK") true, SahamRow.mk 3 "C" (some "C.JK") true] ⟨[], 0⟩
    ∧ countKey (processStocks oneFailProvider (fun _ => false)
        [SahamRow.mk 1 "A" (some "A.JK") true, SahamRow.mk 2 "B" (some "B.JK") true,
          SahamRow.mk 3 "C" (some "C.JK") true] ⟨[], 0⟩) 1 "2024-03-01" = 1
    ∧ countKey (processStocks oneFailProvider (fun _ => false)
        [SahamRow.mk 1 "A" (some "A.JK") true, SahamRow.mk 2 "B" (some "B.JK") true,
          SahamRow.mk 3 "C" (some "C.JK") true] ⟨[], 0⟩) 3 "2024-03-01" = 1 :=
  ⟨by decide,
   run_once_skips_failed_instrument oneFailProvider (fun _ => false)
     [SahamRow.mk 1 "A" (some "A.JK") true] [SahamRow.mk 3 "C" (some "C.JK") true]
     (SahamRow.mk 2 "B" (some "B.JK") true) ⟨[], 0⟩
     (Or.inl ⟨"B.JK", rfl, by decide, by decide⟩),
   by decide, by decide⟩

/-! ## C8: the run always completes; status failure is framed -/

/-- C8: `run_once` is a total function of the failure oracles, so every
combination of per-instrument failures and a status-write failure yields
a normal return (no escalated exit path exists in the model); a status
write failure leaves the status table exactly as it was and does not
change the price rows already committed by the loop, and the `saham`
table is never written. -/
theorem run_once_completes_and_status_frame (yf : Provider) (saveFail : Nat → Bool)
    (now_jkt : JakartaNow) (db : DB) :
    (run_once yf saveFail true now_jkt db).harga = (run_once yf saveFail false now_jkt db).harga
    ∧ (run_once yf saveFail true now_jkt db).status = db.status
    ∧ (run_once yf saveFail false now_jkt db).status
        = update_system_status db.status now_jkt.isoTimestamp (is_market_hours now_jkt)
    ∧ ∀ statusFail : Bool,
        (run_once yf saveFail statusFail now_jkt db).saham = db.saham
        ∧ (run_once yf saveFail statusFail now_jkt db).harga
            = processStocks yf saveFail (get_tracked_stocks db.saham) db.harga := by
  refine ⟨rfl, rfl, rfl, ?_⟩
  intro statusFail
  cases statusFail <;> exact ⟨rfl, rfl⟩

/-! ## C9: startup configuration check -/

/-- Counterexample to C9 as stated: with `SUPABASE_URL` set to the empty
string and `SUPABASE_SERVICE_ROLE_KEY` set to "key", both required
configuration values are present, yet startup aborts — Python truthiness
makes the check reject empty strings, not just absent variables. -/
theorem startup_empty_url_counterexample :
    (Env.mk (some "") (some "key") none).supabase_url = some ""
    ∧ (Env.mk (some "") (some "key") none).service_role_key = some "key"
    ∧ startupConfig (Env.mk (some "") (some "key") none)
        = Except.error "SUPABASE_URL / SUPABASE_SERVICE_ROLE_KEY belum di-set di .env" :=
  ⟨rfl, rfl, rfl⟩

/-- C9 amended: if either required configuration value is absent or empty
(Python-falsy) — the URL, or both key variables — the process fails fast
with the startup `RuntimeError` and nothing else runs: no table is read
or written and no provider call is made (the error result carries no
state change). If both values are present and non-empty, startup proceeds
and the run executes. -/
theorem startup_failfast_amended (env : Env) (yf : Provider) (saveFail : Nat → Bool)
    (statusFail : Bool) (now_jkt : JakartaNow) (db : DB) :
    ((pyTruthy env.supabase_url = false
        ∨ pyTruthy (pyOr env.service_role_key env.anon_key) = false) →
      main_run env yf saveFail statusFail now_jkt db
        = Except.error "SUPABASE_URL / SUPABASE_SERVICE_ROLE_KEY belum di-set di .env")
    ∧ (pyTruthy env.supabase_url = true →
        pyTruthy (pyOr env.service_role_key env.anon_key) = true →
      main_run env yf saveFail statusFail now_jkt db
        = Except.ok (run_once yf saveFail statusFail now_jkt db)) := by
  constructor
  · intro h
    rcases h with h | h <;> simp [main_run, startupConfig, h]
  · intro h1 h2
    simp [main_run, startupConfig, h1, h2]

/-- Witness for C9's amended claim: an unset URL aborts the whole run,
and a fully-set configuration proceeds to `run_once`. -/
theorem startup_failfast_amended_witness :
    pyTruthy (Env.mk none (some "key") none).supabase_url = false
    ∧ main_run (Env.mk none (some "key") none) (fun _ _ _ => Except.error "x")
        (fun _ => false) true ⟨0, 0, ""⟩ ⟨[], ⟨[], 0⟩, []⟩
        = Except.error "SUPABASE_URL / SUPABASE_SERVICE_ROLE_KEY belum di-set di .env"
    ∧ pyTruthy (Env.mk (some "u") (some "k") none).supabase_url = true
    ∧ main_run (Env.mk (some "u") (some "k") none) (fun _ _ _ => Except.error "x")
        (fun _ => false) true ⟨0, 0, ""⟩ ⟨[], ⟨[], 0⟩, []⟩
        = Except.ok (run_once (fun _ _ _ => Except.error "x") (fun _ => false) true
            ⟨0, 0, ""⟩ ⟨[], ⟨[], 0⟩, []⟩) :=
  ⟨rfl,
   (startup_failfast_amended (Env.mk none (some "key") none) (fun _ _ _ => Except.error "x")
     (fun _ => false) true ⟨0, 0, ""⟩ ⟨[], ⟨[], 0⟩, []⟩).1 (Or.inl rfl),
   by decide,
   (startup_failfast_amended (Env.mk (some "u") (some "k") none) (fun _ _ _ => Except.error "x")
     (fun _ => false) true ⟨0, 0, ""⟩ ⟨[], ⟨[], 0⟩, []⟩).2 (by decide) (by decide)⟩

end AutoUpdate
